import Mathlib

/-
Shallow embedding of the nest-js-email-sendgrid library (validator, masking
utility, attachment preparation and the SendgridService send operations),
with theorems checking the specification claims against it.

External collaborators are parameters of the embedding:
* `isEmail` — the class-validator predicate used by `checkValidEmailList`;
* `bufBase64` — Node Buffer base64 rendering (`toString` with base64 encoding);
* `http` — the network world seen by `https.get`;
* `sgSend` / `smtpSend` — the SendGrid client and the nodemailer transport.
Effects (HTTP fetches, provider sends, relay sends) are returned as an
explicit trace so that "no network activity" claims are statable.
-/

/-- Translation of `checkValidEmailList` in
`src/lib/utils/email-validator.util.ts`.  The external `isEmail` predicate of
the class-validator package is a parameter.  An absent (`none`) or empty list
is invalid; otherwise every element must satisfy `isEmail` (the source loop
returns `false` at the first invalid element). -/
def checkValidEmailList (isEmail : String → Bool) (emails : Option (List String)) : Bool :=
  match emails with
  | none => false
  | some l => if l.length = 0 then false else l.all isEmail

/-- JavaScript `String.prototype.split` on a one-character separator, acting on
the character list of the string; `"".split(sep)` gives `[""]`, matching the
base case. -/
def splitOnChar (sep : Char) : List Char → List (List Char)
  | [] => [[]]
  | c :: cs =>
    let r := splitOnChar sep cs
    if c = sep then [] :: r
    else
      match r with
      | [] => [[c]]
      | h :: t => (c :: h) :: t

/-- JavaScript `Array.prototype.join` with a one-character separator. -/
def joinSep (sep : Char) : List (List Char) → List Char
  | [] => []
  | [x] => x
  | x :: xs => x ++ sep :: joinSep sep xs

/-- The four characters the JavaScript regular-expression dot does NOT match:
line feed, carriage return, line separator and paragraph separator.  The
masking utility uses `replace` with a global dot pattern, so these characters
pass through unmasked. -/
def isLineTerminator (c : Char) : Bool :=
  c == '\n' || c == '\r' || c == Char.ofNat 0x2028 || c == Char.ofNat 0x2029

/-- The TypeScript union `string | string[]` used for recipient fields. -/
inductive Recipients where
  | single (s : String)
  | many (l : List String)
deriving DecidableEq

/-- The `Array.isArray(x) ? x : [x]` normalization used throughout the
service. -/
def Recipients.normalize : Recipients → List String
  | .single s => [s]
  | .many l => l

/-- Translation of the inner `maskEmail` arrow function of `maskEmailList`
(masking utility, `src/unnamed/part_001`): `[local, domain] = email.split('@')`;
a local part longer than 3 characters keeps its first two and last two
characters around a six-star mask, a shorter local part is star-masked
character for character; the first domain label keeps its first and last
character around a four-star mask and the remaining labels are re-joined with
dots.  The short-local branch is `replace` with a global dot pattern: every
character is replaced by a star EXCEPT line terminators, which the JavaScript
dot does not match and which therefore pass through.  (On an address whose
first domain label is empty the JavaScript code would interpolate the text
`undefined`; the embedding yields the empty slice there instead, and the
theorems below assume a non-empty first label.  On an address without an
at-sign the JavaScript code throws a TypeError — that path is modeled at the
service layer by `maskLogThrows` below, and the masking theorems assume the
local-part/domain shape.) -/
def maskEmail (email : String) : String :=
  let parts := splitOnChar '@' email.data
  let localPart := parts.headD []
  let domain := (parts.drop 1).headD []
  let domainParts := splitOnChar '.' domain
  let d0 := domainParts.headD []
  let maskedLocal :=
    if 3 < localPart.length then
      localPart.take 2 ++ ['*', '*', '*', '*', '*', '*'] ++ localPart.drop (localPart.length - 2)
    else
      localPart.map (fun c => if isLineTerminator c then c else '*')
  let maskedDomain :=
    d0.take 1 ++ ['*', '*', '*', '*'] ++ d0.drop (d0.length - 1)
      ++ '.' :: joinSep '.' (domainParts.drop 1)
  String.mk (maskedLocal ++ '@' :: maskedDomain)

/-- Translation of `maskEmailList` (masking utility, `src/unnamed/part_001`):
normalize the input to an array, then mask each element when `shouldMask` is
true and pass it through unchanged otherwise. -/
def maskEmailList (emails : Recipients) (shouldMask : Bool) : List String :=
  emails.normalize.map (fun email => if shouldMask then maskEmail email else email)

/- ### Lemmas about the JavaScript split/join pair -/

theorem splitOnChar_of_not_mem (sep : Char) (l : List Char) (h : sep ∉ l) :
    splitOnChar sep l = [l] := by
  induction l with
  | nil => rfl
  | cons c cs ih =>
    have hc : ¬(c = sep) := fun hc => h (hc ▸ List.mem_cons_self c cs)
    have hcs : sep ∉ cs := fun hm => h (List.mem_cons_of_mem _ hm)
    rw [splitOnChar]
    simp only [ih hcs, if_neg hc]

theorem splitOnChar_append (sep : Char) (l₁ l₂ : List Char) (h : sep ∉ l₁) :
    splitOnChar sep (l₁ ++ sep :: l₂) = l₁ :: splitOnChar sep l₂ := by
  induction l₁ with
  | nil => simp [splitOnChar]
  | cons c cs ih =>
    have hc : ¬(c = sep) := fun hc => h (hc ▸ List.mem_cons_self c cs)
    have hcs : sep ∉ cs := fun hm => h (List.mem_cons_of_mem _ hm)
    rw [List.cons_append, splitOnChar]
    simp only [ih hcs, if_neg hc]

theorem splitOnChar_ne_nil (sep : Char) (l : List Char) : splitOnChar sep l ≠ [] := by
  cases l with
  | nil => simp [splitOnChar]
  | cons c cs =>
    rw [splitOnChar]
    by_cases hc : c = sep
    · simp [hc]
    · simp only [if_neg hc]
      cases h : splitOnChar sep cs <;> simp

theorem joinSep_cons_cons (sep c : Char) (h : List Char) (t : List (List Char)) :
    joinSep sep ((c :: h) :: t) = c :: joinSep sep (h :: t) := by
  cases t <;> simp [joinSep]

theorem joinSep_splitOnChar (sep : Char) (l : List Char) :
    joinSep sep (splitOnChar sep l) = l := by
  induction l with
  | nil => rfl
  | cons c cs ih =>
    rw [splitOnChar]
    by_cases hc : c = sep
    · rw [if_pos hc]
      cases hsp : splitOnChar sep cs with
      | nil => exact absurd hsp (splitOnChar_ne_nil sep cs)
      | cons h t =>
        rw [hsp] at ih
        subst hc
        simpa [joinSep] using ih
    · rw [if_neg hc]
      cases hsp : splitOnChar sep cs with
      | nil => exact absurd hsp (splitOnChar_ne_nil sep cs)
      | cons h t =>
        rw [hsp] at ih
        simpa [joinSep_cons_cons] using ih

/-- Computation of `maskEmail` on an address split into local part, first
domain label and remaining domain text. -/
theorem maskEmail_eq (lp d0 drest : List Char)
    (hlp : '@' ∉ lp) (hdom : '@' ∉ d0 ++ '.' :: drest) (hd0 : '.' ∉ d0) :
    maskEmail (String.mk (lp ++ '@' :: (d0 ++ '.' :: drest)))
      = String.mk
          ((if 3 < lp.length then
              lp.take 2 ++ ['*', '*', '*', '*', '*', '*'] ++ lp.drop (lp.length - 2)
            else
              lp.map (fun c => if isLineTerminator c then c else '*'))
            ++ '@' :: (d0.take 1 ++ ['*', '*', '*', '*'] ++ d0.drop (d0.length - 1)
                ++ '.' :: drest)) := by
  have hparts : splitOnChar '@' (lp ++ '@' :: (d0 ++ '.' :: drest))
      = lp :: splitOnChar '@' (d0 ++ '.' :: drest) := splitOnChar_append '@' _ _ hlp
  have hdom1 : splitOnChar '@' (d0 ++ '.' :: drest) = [d0 ++ '.' :: drest] :=
    splitOnChar_of_not_mem '@' _ hdom
  have hdot : splitOnChar '.' (d0 ++ '.' :: drest) = d0 :: splitOnChar '.' drest :=
    splitOnChar_append '.' _ _ hd0
  have hjoin : joinSep '.' (splitOnChar '.' drest) = drest := joinSep_splitOnChar '.' drest
  simp only [maskEmail, hparts, hdom1, hdot, hjoin, List.headD_cons, List.drop_one,
    List.tail_cons]

/-- C1: for every non-empty list in which every element satisfies the email
syntax predicate, `checkValidEmailList` returns true; for an absent list, an
empty list, or a list containing a malformed element, it returns false. -/
theorem checkValidEmailList_spec :
    (∀ isEmail : String → Bool, checkValidEmailList isEmail none = false)
    ∧ (∀ isEmail : String → Bool, checkValidEmailList isEmail (some []) = false)
    ∧ (∀ (isEmail : String → Bool) (l : List String),
        l ≠ [] → (∀ e ∈ l, isEmail e = true) → checkValidEmailList isEmail (some l) = true)
    ∧ (∀ (isEmail : String → Bool) (l : List String) (e : String),
        e ∈ l → isEmail e = false → checkValidEmailList isEmail (some l) = false) := by
  refine ⟨fun _ => rfl, fun _ => rfl, ?_, ?_⟩
  · intro iE l hne hall
    cases l with
    | nil => exact absurd rfl hne
    | cons a as =>
      simp only [checkValidEmailList, List.length_cons, Nat.succ_ne_zero, if_false]
      exact List.all_eq_true.mpr hall
  · intro iE l e he hf
    cases l with
    | nil => cases he
    | cons a as =>
      simp only [checkValidEmailList, List.length_cons, Nat.succ_ne_zero, if_false]
      cases hall : (a :: as).all iE
      · rfl
      · exact absurd (List.all_eq_true.mp hall e he) (by simp [hf])

/-- C1 witness: the validator at concrete inputs, through
`checkValidEmailList_spec`. -/
theorem checkValidEmailList_spec_witness :
    checkValidEmailList (fun s => s == "a@b.com") (some ["a@b.com"]) = true
    ∧ checkValidEmailList (fun s => s == "a@b.com") (some ["not-an-email"]) = false := by
  constructor
  · exact checkValidEmailList_spec.2.2.1 (fun s => s == "a@b.com") ["a@b.com"]
      (by decide) (by decide)
  · exact checkValidEmailList_spec.2.2.2 (fun s => s == "a@b.com") ["not-an-email"]
      "not-an-email" (by decide) (by decide)

/-- C9: with `enabled = false`, `maskEmailList` is the identity up to
normalization into a sequence — a single address becomes a one-element list
and a list of addresses is returned unchanged. -/
theorem maskEmailList_disabled_identity :
    (∀ s : String, maskEmailList (.single s) false = [s])
    ∧ (∀ l : List String, maskEmailList (.many l) false = l) := by
  constructor
  · intro s; rfl
  · intro l
    simp [maskEmailList, Recipients.normalize]

/-- C2 counterexample: the address `"a\n@b.com"` has a local part of length 2
(at most 3), yet masking yields `"*\n@b****b.com"` — the newline survives,
because the JavaScript regular-expression dot in `replace` does not match
line terminators — and not the fully masked `"**@b****b.com"` the claim
predicts. -/
theorem maskEmailList_masking_counterexample :
    maskEmailList (.single "a\n@b.com") true = ["*\n@b****b.com"]
    ∧ "a\n@b.com".data = "a\n".data ++ '@' :: ("b".data ++ '.' :: "com".data)
    ∧ "a\n".data.length ≤ 3
    ∧ maskEmailList (.single "a\n@b.com") true ≠ ["**@b****b.com"] := by
  refine ⟨by decide, by decide, by decide, by decide⟩

/-- C2 as amended: with `enabled = true`, a local part longer than 3
characters keeps its first two and last two characters around the fixed
six-star mask; a local part of length at most 3 is masked character for
character, each character that is not a line terminator becoming the mask
character while line terminators pass through (the JavaScript dot does not
match them) — in particular a short local part without line terminators
becomes a same-length string consisting entirely of the mask character; the
first domain label keeps its first and last character around the fixed
four-star mask and the remaining domain labels pass through unchanged.  In
particular `"johndoe@example.com"` maps to `"jo******oe@e****e.com"`. -/
theorem maskEmailList_masking_amended :
    (∀ lp d0 drest : List Char,
      '@' ∉ lp → '@' ∉ d0 ++ '.' :: drest → '.' ∉ d0 → d0 ≠ [] → 3 < lp.length →
      maskEmailList (.single (String.mk (lp ++ '@' :: (d0 ++ '.' :: drest)))) true
        = [String.mk (lp.take 2 ++ ['*', '*', '*', '*', '*', '*'] ++ lp.drop (lp.length - 2)
            ++ '@' :: (d0.take 1 ++ ['*', '*', '*', '*'] ++ d0.drop (d0.length - 1)
                ++ '.' :: drest))])
    ∧ (∀ lp d0 drest : List Char,
      '@' ∉ lp → '@' ∉ d0 ++ '.' :: drest → '.' ∉ d0 → d0 ≠ [] → lp.length ≤ 3 →
      maskEmailList (.single (String.mk (lp ++ '@' :: (d0 ++ '.' :: drest)))) true
        = [String.mk (lp.map (fun c => if isLineTerminator c then c else '*')
            ++ '@' :: (d0.take 1 ++ ['*', '*', '*', '*'] ++ d0.drop (d0.length - 1)
                ++ '.' :: drest))])
    ∧ (∀ lp d0 drest : List Char,
      '@' ∉ lp → '@' ∉ d0 ++ '.' :: drest → '.' ∉ d0 → d0 ≠ [] → lp.length ≤ 3 →
      (∀ c ∈ lp, isLineTerminator c = false) →
      ∃ ml : List Char,
        maskEmailList (.single (String.mk (lp ++ '@' :: (d0 ++ '.' :: drest)))) true
          = [String.mk (ml ++ '@' :: (d0.take 1 ++ ['*', '*', '*', '*']
              ++ d0.drop (d0.length - 1) ++ '.' :: drest))]
        ∧ ml.length = lp.length ∧ ∀ c ∈ ml, c = '*')
    ∧ maskEmailList (.single "johndoe@example.com") true = ["jo******oe@e****e.com"] := by
  refine ⟨?_, ?_, ?_, ?_⟩
  · intro lp d0 drest hlp hdom hd0 _ hlen
    have h := maskEmail_eq lp d0 drest hlp hdom hd0
    rw [if_pos hlen] at h
    simp [maskEmailList, Recipients.normalize, h]
  · intro lp d0 drest hlp hdom hd0 _ hlen
    have h := maskEmail_eq lp d0 drest hlp hdom hd0
    rw [if_neg (by omega)] at h
    simp [maskEmailList, Recipients.normalize, h]
  · intro lp d0 drest hlp hdom hd0 _ hlen hlt
    have h := maskEmail_eq lp d0 drest hlp hdom hd0
    rw [if_neg (by omega)] at h
    refine ⟨lp.map (fun c => if isLineTerminator c then c else '*'), ?_, by simp, ?_⟩
    · simp [maskEmailList, Recipients.normalize, h]
    · intro c hc
      rcases List.mem_map.mp hc with ⟨x, hx, hfx⟩
      rw [← hfx]
      simp [hlt x hx]
  · decide

/-- C2 witness: the ">3" branch of `maskEmailList_masking_amended` applied to
the concrete address `"johndoe@example.com"`. -/
theorem maskEmailList_masking_amended_witness :
    maskEmailList (.single (String.mk ("johndoe".data ++ '@' :: ("example".data ++ '.' :: "com".data)))) true
      = [String.mk ("johndoe".data.take 2 ++ ['*', '*', '*', '*', '*', '*']
          ++ "johndoe".data.drop ("johndoe".data.length - 2)
          ++ '@' :: ("example".data.take 1 ++ ['*', '*', '*', '*']
              ++ "example".data.drop ("example".data.length - 1) ++ '.' :: "com".data))] :=
  maskEmailList_masking_amended.1 "johndoe".data "example".data "com".data
    (by decide) (by decide) (by decide) (by decide) (by decide)

/- ### Data model of requests and attachments -/

/-- Attachment content, `string | Buffer` in the TypeScript interface; a
Buffer is a byte list. -/
inductive AttContent where
  | str (s : String)
  | buf (bytes : List Nat)
deriving DecidableEq

/-- An inline attachment as supplied by the caller.  `content` and `filename`
are typed as mandatory in TypeScript but checked for JavaScript truthiness at
runtime, hence the `Option`s. -/
structure RawAttachment where
  content : Option AttContent
  filename : Option String
  type : Option String
  disposition : Option String
  contentId : Option String
deriving DecidableEq

/-- A normalized attachment descriptor as handed to the SendGrid client. -/
structure PreparedAttachment where
  content : String
  filename : String
  type : String
  disposition : String
  contentId : Option String
deriving DecidableEq

/-- The `EmailParams` interface of `sendgrid.service.ts` (the TypeScript
keyword `from` is rendered `fromAddr`). -/
structure EmailParams where
  toAddr : Recipients
  fromAddr : Option String
  template : Option String
  data : Option (List (String × String))
  text : Option String
  fileName : Option String
  url : Option String
  html : Option String
  subject : Option String
  attachments : Option (List RawAttachment)
deriving DecidableEq

/-- The `SendgridModuleOptions` configuration interface. -/
structure SendgridModuleOptions where
  apiKey : String
  defaultFromEmail : String
  masking : Option Bool
  isGlobal : Option Bool
deriving DecidableEq

/-- JavaScript truthiness of an optional string: absent and `""` are falsy. -/
def jsTruthyOpt : Option String → Bool
  | none => false
  | some s => s != ""

/-- JavaScript `a || b` on an optional string. -/
def jsOrStr (o : Option String) (d : String) : String :=
  match o with
  | none => d
  | some s => if s == "" then d else s

/-- JavaScript truthiness of an optional `string | Buffer` value: absent and
the empty string are falsy, every Buffer is truthy. -/
def jsTruthyContent : Option AttContent → Bool
  | none => false
  | some (.str s) => s != ""
  | some (.buf _) => true

/-- `params.attachments?.length ?? 0`: the length tested for truthiness by
`!params.attachments?.length`. -/
def attsCount (o : Option (List RawAttachment)) : Nat := (o.getD []).length

/-- The filter predicate `att => att.content && att.filename` of
`prepareAttachments`. -/
def attKeep (a : RawAttachment) : Bool := jsTruthyContent a.content && jsTruthyOpt a.filename

/-- The map step of `prepareAttachments` over a kept inline attachment: render
a Buffer to base64, default the MIME type and the disposition, pass the
content id through.  The `"undefined"` fallbacks are unreachable, as the entry
passed `attKeep`. -/
def prepareOne (bufBase64 : List Nat → String) (a : RawAttachment) : PreparedAttachment :=
  { content :=
      match a.content with
      | some (.str s) => s
      | some (.buf b) => bufBase64 b
      | none => "undefined"
    filename := a.filename.getD "undefined"
    type := jsOrStr a.type "application/octet-stream"
    disposition := jsOrStr a.disposition "attachment"
    contentId := a.contentId }

/- ### The HTTP world and `fetchFileFromUrl` -/

/-- Outcome of buffering a response body: complete bytes, or a stream error
(the response error event). -/
inductive BodyResult where
  | complete (bytes : List Nat)
  | errored (msg : String)
deriving DecidableEq

/-- What `https.get` yields for a URL: a request-level error, or a response
with a status code, a content-type header and a body. -/
inductive HttpResult where
  | reqError (msg : String)
  | resp (status : Nat) (contentType : Option String) (body : BodyResult)
deriving DecidableEq

/-- Resolution value of `fetchFileFromUrl`: base64 content plus content
type. -/
structure FetchOk where
  content : String
  contentType : String
deriving DecidableEq

/-- Translation of the private `fetchFileFromUrl`: reject on a request error,
reject any non-200 status naming the status code, reject on a body stream
error, otherwise buffer the body, base64-encode it and default the
content-type header to `application/octet-stream`. -/
def fetchFileFromUrl (bufBase64 : List Nat → String) (r : HttpResult) :
    Except String FetchOk :=
  match r with
  | .reqError m => .error ("Request failed: " ++ m)
  | .resp status ct body =>
    if status != 200 then .error ("Failed to fetch file: " ++ toString status)
    else
      match body with
      | .errored m => .error ("Network error: " ++ m)
      | .complete bytes =>
        .ok { content := bufBase64 bytes, contentType := jsOrStr ct "application/octet-stream" }

/- ### Messages, transports and the effect trace -/

/-- A nodemailer path-based attachment descriptor `{path, filename}`. -/
structure PathAttachment where
  path : String
  filename : String
deriving DecidableEq

/-- The assembled SendGrid message (`MailDataRequired` fields used by the
service). -/
structure MailMsg where
  toAddr : Recipients
  fromAddr : String
  subject : Option String
  templateId : Option String
  dynamicTemplateData : Option (List (String × String))
  html : Option String
  text : Option String
  attachments : Option (List PreparedAttachment)
deriving DecidableEq

/-- The nodemailer mail options built by `sendEmailWithUrlAttachment`. -/
structure SmtpMail where
  toAddr : Recipients
  fromAddr : String
  subject : Option String
  text : Option String
  attachments : Option (List PathAttachment)
deriving DecidableEq

/-- Externally observable effects of a send operation, in order: an HTTP GET
for a URL attachment, a SendGrid client send, a nodemailer relay send. -/
inductive Effect where
  | httpGet (url : String)
  | sgSend (msg : MailMsg)
  | smtpSend (mail : SmtpMail)
deriving DecidableEq

/-- Errors signalled to the caller: `BadRequestException`, re-thrown dispatch
failures, and the raw TypeError thrown by the masked-recipient log when
masking is enabled and a recipient contains no at-sign. -/
inductive SendError where
  | badRequest (msg : String)
  | dispatch (msg : String)
  | typeError (msg : String)
deriving DecidableEq

/-- Recognizer for provider (SendGrid) send effects. -/
def isSgSendEff : Effect → Bool
  | .sgSend _ => true
  | _ => false

/-- Recognizer for HTTP GET effects. -/
def isHttpGetEff : Effect → Bool
  | .httpGet _ => true
  | _ => false

/- ### `prepareAttachments` -/

/-- The URL half of `prepareAttachments`: when `params.url` is truthy, fetch
it, fail if the resolved content is falsy, otherwise build the URL-derived
attachment with the request override filename (default `"attachment"`). -/
def urlAttachmentStep (bufBase64 : List Nat → String) (http : String → HttpResult)
    (params : EmailParams) : Except String (List PreparedAttachment) × List Effect :=
  if jsTruthyOpt params.url then
    let url := params.url.getD ""
    match fetchFileFromUrl bufBase64 (http url) with
    | .error m => (.error m, [.httpGet url])
    | .ok fr =>
      if fr.content == "" then (.error "Failed to fetch attachment content", [.httpGet url])
      else
        (.ok [{ content := fr.content
                filename := jsOrStr params.fileName "attachment"
                type := fr.contentType
                disposition := "attachment"
                contentId := none }],
         [.httpGet url])
  else (.ok [], [])

/-- Translation of the private `prepareAttachments`: absent when the request
carries neither inline attachments nor a URL; otherwise the URL-derived
attachment (if any) followed by the kept inline attachments; any failure in
the try block is wrapped into a single `BadRequestException` naming the
cause; an empty final list is returned as absent. -/
def prepareAttachments (bufBase64 : List Nat → String) (http : String → HttpResult)
    (params : EmailParams) :
    Except SendError (Option (List PreparedAttachment)) × List Effect :=
  if attsCount params.attachments = 0 && !jsTruthyOpt params.url then (.ok none, [])
  else
    match urlAttachmentStep bufBase64 http params with
    | (.error m, eff) => (.error (.badRequest ("Failed to prepare attachments: " ++ m)), eff)
    | (.ok urlAtts, eff) =>
      let inline :=
        if attsCount params.attachments = 0 then []
        else ((params.attachments.getD []).filter attKeep).map (prepareOne bufBase64)
      let all := urlAtts ++ inline
      (.ok (if 0 < all.length then some all else none), eff)

/- ### The send operations -/

/-- The service masking flag, `this.options.masking === true`. -/
def maskingOf (opts : SendgridModuleOptions) : Bool := opts.masking == some true

/-- Whether the masked-recipient log of a send operation throws.  Every send
operation logs the recipients through `maskEmailList(..., this.masking)`
before doing anything else (in `sendEmailUsingFileAttachment`, right after
the attachment guard).  When masking is enabled, `maskEmail` destructures
`email.split('@')` into local part and domain, so a recipient without an
at-sign leaves the domain `undefined` and reading `.split` from it throws a
raw TypeError, outside every try block — before attachment preparation,
address validation and dispatch.  When masking is disabled the log maps the
identity and cannot throw.  The success-path logs repeat the same call on the
same recipients, so they cannot throw once this initial log has passed. -/
def maskLogThrows (masking : Bool) (r : Recipients) : Bool :=
  masking && r.normalize.any (fun e => !(e.data.contains '@'))

/-- Translation of `sendEmailFromTemplate`: first the masked-recipient log,
which throws a TypeError when `maskLogThrows` holds; then assemble the
message (attachments are prepared during assembly, before any validation),
validate the recipient list then the sender, dispatch via the SendGrid
client, return the `success` marker or re-throw the dispatch error
unchanged. -/
def sendEmailFromTemplate (isEmail : String → Bool) (bufBase64 : List Nat → String)
    (http : String → HttpResult) (sgSend : MailMsg → Except String Unit)
    (opts : SendgridModuleOptions) (params : EmailParams) :
    Except SendError String × List Effect :=
  if maskLogThrows (maskingOf opts) params.toAddr then
    (.error (.typeError "Cannot read properties of undefined"), [])
  else
    match prepareAttachments bufBase64 http params with
    | (.error e, eff) => (.error e, eff)
    | (.ok atts, eff) =>
      let msg : MailMsg :=
        { toAddr := params.toAddr
          fromAddr := jsOrStr params.fromAddr opts.defaultFromEmail
          subject := params.subject
          templateId := params.template
          dynamicTemplateData := params.data
          html := none
          text := none
          attachments := atts }
      if !checkValidEmailList isEmail (some msg.toAddr.normalize) then
        (.error (.badRequest "Invalid email address provided"), eff)
      else if !checkValidEmailList isEmail (some [msg.fromAddr]) then
        (.error (.badRequest "Invalid sender email address"), eff)
      else
        match sgSend msg with
        | .ok _ => (.ok "success", eff ++ [.sgSend msg])
        | .error e => (.error (.dispatch e), eff ++ [.sgSend msg])

/-- The body of `sendEmailCustomHtmlBody` after its initial masked-recipient
log; identical to the template operation except that the body is the raw HTML
string.  The complete method, including the log (which can throw), is
`sendEmailCustomHtmlBodyFull` below; on recipients that all contain an
at-sign — in particular any recipients the real validator accepts — the log
is total and the two agree. -/
def sendEmailCustomHtmlBody (isEmail : String → Bool) (bufBase64 : List Nat → String)
    (http : String → HttpResult) (sgSend : MailMsg → Except String Unit)
    (opts : SendgridModuleOptions) (params : EmailParams) :
    Except SendError String × List Effect :=
  match prepareAttachments bufBase64 http params with
  | (.error e, eff) => (.error e, eff)
  | (.ok atts, eff) =>
    let msg : MailMsg :=
      { toAddr := params.toAddr
        fromAddr := jsOrStr params.fromAddr opts.defaultFromEmail
        subject := params.subject
        templateId := none
        dynamicTemplateData := none
        html := params.html
        text := none
        attachments := atts }
    if !checkValidEmailList isEmail (some msg.toAddr.normalize) then
      (.error (.badRequest "Invalid email address provided"), eff)
    else if !checkValidEmailList isEmail (some [msg.fromAddr]) then
      (.error (.badRequest "Invalid sender email address"), eff)
    else
      match sgSend msg with
      | .ok _ => (.ok "success", eff ++ [.sgSend msg])
      | .error e => (.error (.dispatch e), eff ++ [.sgSend msg])

/-- The complete `sendEmailCustomHtmlBody` method: its first statement logs
the recipients through `maskEmailList(..., this.masking)`, which throws a
TypeError when `maskLogThrows` holds; otherwise the method proceeds as
`sendEmailCustomHtmlBody` above.  The success-path log repeats the same call
on the same recipients, so it cannot throw once this guard has passed. -/
def sendEmailCustomHtmlBodyFull (isEmail : String → Bool) (bufBase64 : List Nat → String)
    (http : String → HttpResult) (sgSend : MailMsg → Except String Unit)
    (opts : SendgridModuleOptions) (params : EmailParams) :
    Except SendError String × List Effect :=
  if maskLogThrows (maskingOf opts) params.toAddr then
    (.error (.typeError "Cannot read properties of undefined"), [])
  else
    sendEmailCustomHtmlBody isEmail bufBase64 http sgSend opts params

/-- Translation of `sendEmailCustomText`: the masked-recipient log first
(throwing when `maskLogThrows` holds), then as the template operation except
that the body is the plain text string. -/
def sendEmailCustomText (isEmail : String → Bool) (bufBase64 : List Nat → String)
    (http : String → HttpResult) (sgSend : MailMsg → Except String Unit)
    (opts : SendgridModuleOptions) (params : EmailParams) :
    Except SendError String × List Effect :=
  if maskLogThrows (maskingOf opts) params.toAddr then
    (.error (.typeError "Cannot read properties of undefined"), [])
  else
    match prepareAttachments bufBase64 http params with
    | (.error e, eff) => (.error e, eff)
    | (.ok atts, eff) =>
      let msg : MailMsg :=
        { toAddr := params.toAddr
          fromAddr := jsOrStr params.fromAddr opts.defaultFromEmail
          subject := params.subject
          templateId := none
          dynamicTemplateData := none
          html := none
          text := params.text
          attachments := atts }
      if !checkValidEmailList isEmail (some msg.toAddr.normalize) then
        (.error (.badRequest "Invalid email address provided"), eff)
      else if !checkValidEmailList isEmail (some [msg.fromAddr]) then
        (.error (.badRequest "Invalid sender email address"), eff)
      else
        match sgSend msg with
        | .ok _ => (.ok "success", eff ++ [.sgSend msg])
        | .error e => (.error (.dispatch e), eff ++ [.sgSend msg])

/-- Translation of `sendEmailUsingFileAttachment`: reject immediately if the
attachment list is falsy (absent or empty) — this guard is the first
statement of the method, before the masked-recipient log; then the log, which
throws a TypeError when `maskLogThrows` holds; then proceed as the other
provider-API operations, choosing the body by the truthiness chain template,
then HTML, then text. -/
def sendEmailUsingFileAttachment (isEmail : String → Bool) (bufBase64 : List Nat → String)
    (http : String → HttpResult) (sgSend : MailMsg → Except String Unit)
    (opts : SendgridModuleOptions) (params : EmailParams) :
    Except SendError String × List Effect :=
  if attsCount params.attachments = 0 then
    (.error (.badRequest "At least one attachment is required for sendEmailUsingFileAttachment"),
     [])
  else if maskLogThrows (maskingOf opts) params.toAddr then
    (.error (.typeError "Cannot read properties of undefined"), [])
  else
    match prepareAttachments bufBase64 http params with
    | (.error e, eff) => (.error e, eff)
    | (.ok atts, eff) =>
      let base : MailMsg :=
        { toAddr := params.toAddr
          fromAddr := jsOrStr params.fromAddr opts.defaultFromEmail
          subject := params.subject
          templateId := none
          dynamicTemplateData := none
          html := none
          text := none
          attachments := atts }
      let msg :=
        if jsTruthyOpt params.template then
          { base with templateId := params.template, dynamicTemplateData := params.data }
        else if jsTruthyOpt params.html then
          { base with html := params.html }
        else
          { base with text := params.text }
      if !checkValidEmailList isEmail (some msg.toAddr.normalize) then
        (.error (.badRequest "Invalid email address provided"), eff)
      else if !checkValidEmailList isEmail (some [msg.fromAddr]) then
        (.error (.badRequest "Invalid sender email address"), eff)
      else
        match sgSend msg with
        | .ok _ => (.ok "success", eff ++ [.sgSend msg])
        | .error e => (.error (.dispatch e), eff ++ [.sgSend msg])

/-- The nodemailer mail options literal built by
`sendEmailWithUrlAttachment`. -/
def urlMailOptions (opts : SendgridModuleOptions) (params : EmailParams) : SmtpMail :=
  { toAddr := params.toAddr
    fromAddr := jsOrStr params.fromAddr opts.defaultFromEmail
    subject := params.subject
    text := params.text
    attachments :=
      if jsTruthyOpt params.url then
        some [{ path := params.url.getD "", filename := jsOrStr params.fileName "attachment" }]
      else none }

/-- Translation of `sendEmailWithUrlAttachment`: the masked-recipient log
first, which throws a TypeError when `maskLogThrows` holds; otherwise build
the mail options with a path-based attachment descriptor when a URL is
present, dispatch via the nodemailer relay transport, return its raw result
verbatim and re-throw its failures.  No address validation and no attachment
preparation occur. -/
def sendEmailWithUrlAttachment {α : Type} (smtpSend : SmtpMail → Except String α)
    (opts : SendgridModuleOptions) (params : EmailParams) :
    Except SendError α × List Effect :=
  if maskLogThrows (maskingOf opts) params.toAddr then
    (.error (.typeError "Cannot read properties of undefined"), [])
  else
    let mailOptions := urlMailOptions opts params
    match smtpSend mailOptions with
    | .ok r => (.ok r, [.smtpSend mailOptions])
    | .error e => (.error (.dispatch e), [.smtpSend mailOptions])

/-- Decidable equality for `Except`, used to evaluate outcomes at concrete
inputs. -/
instance {ε α : Type} [DecidableEq ε] [DecidableEq α] : DecidableEq (Except ε α) := fun x y =>
  match x, y with
  | .ok a, .ok b =>
    if h : a = b then .isTrue (by rw [h]) else .isFalse (fun hc => h (Except.ok.inj hc))
  | .error a, .error b =>
    if h : a = b then .isTrue (by rw [h]) else .isFalse (fun hc => h (Except.error.inj hc))
  | .ok _, .error _ => .isFalse (fun hc => Except.noConfusion hc)
  | .error _, .ok _ => .isFalse (fun hc => Except.noConfusion hc)

/- ### Shape of the effect trace of `prepareAttachments` -/

theorem urlAttachmentStep_eff (bufBase64 : List Nat → String) (http : String → HttpResult)
    (params : EmailParams) :
    (urlAttachmentStep bufBase64 http params).2 = []
    ∨ ∃ u, (urlAttachmentStep bufBase64 http params).2 = [Effect.httpGet u] := by
  rw [urlAttachmentStep]
  by_cases hu : jsTruthyOpt params.url
  · rw [if_pos hu]
    cases hf : fetchFileFromUrl bufBase64 (http (params.url.getD "")) with
    | error m => exact Or.inr ⟨params.url.getD "", by simp [hf]⟩
    | ok fr =>
      by_cases hc : fr.content == ""
      · exact Or.inr ⟨params.url.getD "", by simp [hf, hc]⟩
      · exact Or.inr ⟨params.url.getD "", by simp [hf, hc]⟩
  · rw [if_neg hu]
    exact Or.inl rfl

theorem prepareAttachments_eff (bufBase64 : List Nat → String) (http : String → HttpResult)
    (params : EmailParams) :
    (prepareAttachments bufBase64 http params).2 = []
    ∨ ∃ u, (prepareAttachments bufBase64 http params).2 = [Effect.httpGet u] := by
  rw [prepareAttachments]
  by_cases hg : (attsCount params.attachments = 0 && !jsTruthyOpt params.url) = true
  · rw [if_pos hg]
    exact Or.inl rfl
  · rw [if_neg hg]
    have hshape := urlAttachmentStep_eff bufBase64 http params
    cases hstep : urlAttachmentStep bufBase64 http params with
    | mk res eff =>
      rw [hstep] at hshape
      cases res with
      | error m => exact hshape
      | ok urlAtts => exact hshape

theorem prepareAttachments_sgCount (bufBase64 : List Nat → String) (http : String → HttpResult)
    (params : EmailParams) :
    (prepareAttachments bufBase64 http params).2.countP isSgSendEff = 0 := by
  rcases prepareAttachments_eff bufBase64 http params with h | ⟨u, h⟩ <;>
    simp [h, List.countP, List.countP.go, isSgSendEff]

theorem attKeep_of_missing (a : RawAttachment)
    (h : a.content = none ∨ a.filename = none) : attKeep a = false := by
  rcases h with h | h <;> simp [attKeep, jsTruthyContent, jsTruthyOpt, h]

/-- C3: `prepareAttachments` yields absent when the request carries neither
inline attachments nor a URL; an inline entry missing its content or its
filename never passes the keep filter (it is silently dropped); and when every
entry is dropped and no URL is present the result is absent — in particular
for a request whose only inline attachment lacks a filename. -/
theorem prepareAttachments_spec :
    (∀ (bufBase64 : List Nat → String) (http : String → HttpResult) (params : EmailParams),
      attsCount params.attachments = 0 → jsTruthyOpt params.url = false →
      prepareAttachments bufBase64 http params = (.ok none, []))
    ∧ (∀ a : RawAttachment, a.content = none ∨ a.filename = none → attKeep a = false)
    ∧ (∀ (bufBase64 : List Nat → String) (http : String → HttpResult) (params : EmailParams),
      jsTruthyOpt params.url = false →
      (∀ a ∈ params.attachments.getD [], a.content = none ∨ a.filename = none) →
      prepareAttachments bufBase64 http params = (.ok none, [])) := by
  refine ⟨?_, attKeep_of_missing, ?_⟩
  · intro bufBase64 http params h1 h2
    simp [prepareAttachments, h1, h2]
  · intro bufBase64 http params hurl hall
    by_cases hc : attsCount params.attachments = 0
    · simp [prepareAttachments, hc, hurl]
    · have hfil : (params.attachments.getD []).filter attKeep = [] :=
        List.filter_eq_nil_iff.mpr
          (fun a ha => by simp [attKeep_of_missing a (hall a ha)])
      simp [prepareAttachments, hc, hurl, urlAttachmentStep, hfil]

/-- A request with every optional field absent, used as the base of the
concrete examples below. -/
def emptyParams : EmailParams :=
  { toAddr := .single "a@b.com"
    fromAddr := none
    template := none
    data := none
    text := none
    fileName := none
    url := none
    html := none
    subject := none
    attachments := none }

/-- An inline attachment carrying content but no filename. -/
def noFilenameAtt : RawAttachment :=
  { content := some (.str "SGVsbG8=")
    filename := none
    type := none
    disposition := none
    contentId := none }

/-- Example configuration for the concrete examples below. -/
def exampleOpts : SendgridModuleOptions :=
  { apiKey := "SG.key"
    defaultFromEmail := "noreply@example.com"
    masking := none
    isGlobal := none }

/-- C3 witness: a request whose only inline attachment lacks a filename (and
carries no URL) yields an absent attachment list, through
`prepareAttachments_spec`. -/
theorem prepareAttachments_spec_witness :
    prepareAttachments (fun _ => "") (fun _ => .reqError "down")
        { emptyParams with attachments := some [noFilenameAtt] }
      = (.ok none, []) :=
  prepareAttachments_spec.2.2 (fun _ => "") (fun _ => .reqError "down") _
    (by decide) (by decide)

/-- C4: when the attachment list is absent or empty,
`sendEmailUsingFileAttachment` raises the bad-request error immediately and
the effect trace is empty — no HTTP fetch, no address validation outcome, no
provider send happens first. -/
theorem sendEmailUsingFileAttachment_requires_attachment
    (isEmail : String → Bool) (bufBase64 : List Nat → String) (http : String → HttpResult)
    (sgSend : MailMsg → Except String Unit) (opts : SendgridModuleOptions)
    (params : EmailParams) (h : attsCount params.attachments = 0) :
    sendEmailUsingFileAttachment isEmail bufBase64 http sgSend opts params
      = (.error (.badRequest
          "At least one attachment is required for sendEmailUsingFileAttachment"), []) := by
  simp [sendEmailUsingFileAttachment, h]

/-- C4 witness: the empty-attachment rejection at a concrete request, through
`sendEmailUsingFileAttachment_requires_attachment`. -/
theorem sendEmailUsingFileAttachment_requires_attachment_witness :
    sendEmailUsingFileAttachment (fun _ => true) (fun _ => "") (fun _ => .reqError "down")
        (fun _ => .ok ()) exampleOpts emptyParams
      = (.error (.badRequest
          "At least one attachment is required for sendEmailUsingFileAttachment"), []) :=
  sendEmailUsingFileAttachment_requires_attachment (fun _ => true) (fun _ => "")
    (fun _ => .reqError "down") (fun _ => .ok ()) exampleOpts emptyParams (by decide)

/-- C6: when the HTTP GET for the URL attachment answers with a non-200
status, `prepareAttachments` fails with exactly one wrapped bad-request error
whose message names the status code, and produces no (partial) attachment
list. -/
theorem prepareAttachments_url_non200
    (bufBase64 : List Nat → String) (http : String → HttpResult) (params : EmailParams)
    (url : String) (status : Nat) (ct : Option String) (body : BodyResult)
    (hurl : params.url = some url) (hne : url ≠ "")
    (hhttp : http url = .resp status ct body) (hstatus : status ≠ 200) :
    prepareAttachments bufBase64 http params
      = (.error (.badRequest
          ("Failed to prepare attachments: Failed to fetch file: " ++ toString status)),
         [.httpGet url]) := by
  have htr : jsTruthyOpt params.url = true := by simp [jsTruthyOpt, hurl, hne]
  have hgetD : params.url.getD "" = url := by simp [hurl]
  have hb : (status != 200) = true := by simp [bne_iff_ne, hstatus]
  have hfetch : fetchFileFromUrl bufBase64 (http url)
      = .error ("Failed to fetch file: " ++ toString status) := by
    rw [hhttp]
    simp [fetchFileFromUrl, hb]
  have hmsg : "Failed to prepare attachments: " ++ ("Failed to fetch file: " ++ toString status)
      = "Failed to prepare attachments: Failed to fetch file: " ++ toString status := by
    rw [← String.append_assoc]
    rfl
  simp only [prepareAttachments, urlAttachmentStep, htr, hgetD, hfetch, Bool.not_true,
    Bool.and_false, Bool.false_eq_true, if_false, if_true, hmsg]

/-- C6 witness: a simulated 404 response at a concrete request, through
`prepareAttachments_url_non200`. -/
theorem prepareAttachments_url_non200_witness :
    prepareAttachments (fun _ => "") (fun _ => .resp 404 none (.complete []))
        { emptyParams with url := some "https://files.example.com/a.pdf" }
      = (.error (.badRequest
          ("Failed to prepare attachments: Failed to fetch file: " ++ toString 404)),
         [.httpGet "https://files.example.com/a.pdf"]) :=
  prepareAttachments_url_non200 (fun _ => "") (fun _ => .resp 404 none (.complete []))
    { emptyParams with url := some "https://files.example.com/a.pdf" }
    "https://files.example.com/a.pdf" 404 none (.complete [])
    (by decide) (by decide) (by decide) (by decide)

/- ### C5 and C7: recipient-validation and success-path claims -/

/-- An HTTP world in which every GET answers 404 with an empty body. -/
def failing404Http : String → HttpResult := fun _ => .resp 404 none (.complete [])

/-- A request with an invalid recipient, an HTML body and a URL attachment. -/
def urlBadRecipientParams : EmailParams :=
  { emptyParams with
      toAddr := .single "not-an-email"
      html := some "<p>x</p>"
      url := some "https://files.example.com/a.pdf" }

/-- A request with an invalid recipient and an HTML body only. -/
def badRecipientParams : EmailParams :=
  { emptyParams with
      toAddr := .single "not-an-email"
      html := some "<p>x</p>" }

/-- The example configuration with log masking enabled. -/
def maskedOpts : SendgridModuleOptions := { exampleOpts with masking := some true }

/-- C5 counterexample: the claim fails as universally stated on two paths of
the complete HTML operation.  With an invalid recipient and a URL attachment
whose fetch answers 404, it raises the wrapped attachment-preparation
failure, not the invalid-request error citing the recipient (preparation runs
before validation); and with masking enabled, the pre-validation
masked-recipient log throws a raw TypeError on the at-sign-less recipient. -/
theorem sendEmailCustomHtmlBody_invalid_recipient_counterexample :
    checkValidEmailList (fun _ => false) (some urlBadRecipientParams.toAddr.normalize) = false
    ∧ (sendEmailCustomHtmlBodyFull (fun _ => false) (fun _ => "") failing404Http
        (fun _ => .ok ()) exampleOpts urlBadRecipientParams).1
      = .error (.badRequest
          ("Failed to prepare attachments: Failed to fetch file: " ++ toString 404))
    ∧ (sendEmailCustomHtmlBodyFull (fun _ => false) (fun _ => "") failing404Http
        (fun _ => .ok ()) exampleOpts urlBadRecipientParams).1
      ≠ .error (.badRequest "Invalid email address provided")
    ∧ (sendEmailCustomHtmlBodyFull (fun _ => false) (fun _ => "") failing404Http
        (fun _ => .ok ()) maskedOpts badRecipientParams).1
      = .error (.typeError "Cannot read properties of undefined")
    ∧ (sendEmailCustomHtmlBodyFull (fun _ => false) (fun _ => "") failing404Http
        (fun _ => .ok ()) maskedOpts badRecipientParams).1
      ≠ .error (.badRequest "Invalid email address provided") := by
  refine ⟨rfl, rfl, ?_, rfl, ?_⟩ <;> decide

/-- C5 as amended: for every request whose recipient list fails validation,
each of the four provider-API send operations performs zero provider send
calls; and whenever the initial masked-recipient log does not throw (masking
disabled, or every recipient containing an at-sign) and attachment
preparation itself succeeds (for the file-attachment operation: provided
also the attachment list is non-empty, otherwise its own earlier guard
fires), the raised error is exactly the invalid-request error for the
recipient addresses. -/
theorem sendOps_invalid_recipient_amended
    (isEmail : String → Bool) (bufBase64 : List Nat → String) (http : String → HttpResult)
    (sgSend : MailMsg → Except String Unit) (opts : SendgridModuleOptions)
    (params : EmailParams)
    (hto : checkValidEmailList isEmail (some params.toAddr.normalize) = false) :
    ((sendEmailFromTemplate isEmail bufBase64 http sgSend opts params).2.countP isSgSendEff = 0
      ∧ (sendEmailCustomHtmlBodyFull isEmail bufBase64 http sgSend opts params).2.countP
          isSgSendEff = 0
      ∧ (sendEmailCustomText isEmail bufBase64 http sgSend opts params).2.countP
          isSgSendEff = 0
      ∧ (sendEmailUsingFileAttachment isEmail bufBase64 http sgSend opts params).2.countP
          isSgSendEff = 0)
    ∧ (maskLogThrows (maskingOf opts) params.toAddr = false →
        ∀ (atts : Option (List PreparedAttachment)) (eff : List Effect),
        prepareAttachments bufBase64 http params = (.ok atts, eff) →
        (sendEmailFromTemplate isEmail bufBase64 http sgSend opts params).1
            = .error (.badRequest "Invalid email address provided")
        ∧ (sendEmailCustomHtmlBodyFull isEmail bufBase64 http sgSend opts params).1
            = .error (.badRequest "Invalid email address provided")
        ∧ (sendEmailCustomText isEmail bufBase64 http sgSend opts params).1
            = .error (.badRequest "Invalid email address provided")
        ∧ (attsCount params.attachments ≠ 0 →
            (sendEmailUsingFileAttachment isEmail bufBase64 http sgSend opts params).1
              = .error (.badRequest "Invalid email address provided"))) := by
  have heff : (prepareAttachments bufBase64 http params).2.countP isSgSendEff = 0 :=
    prepareAttachments_sgCount bufBase64 http params
  constructor
  · cases hm : maskLogThrows (maskingOf opts) params.toAddr
    · refine ⟨?_, ?_, ?_, ?_⟩
      · cases hp : prepareAttachments bufBase64 http params with
        | mk res eff =>
          rw [hp] at heff
          cases res with
          | error e => simp [sendEmailFromTemplate, hm, hp, heff]
          | ok atts => simp [sendEmailFromTemplate, hm, hp, hto, heff]
      · cases hp : prepareAttachments bufBase64 http params with
        | mk res eff =>
          rw [hp] at heff
          cases res with
          | error e =>
            simp [sendEmailCustomHtmlBodyFull, sendEmailCustomHtmlBody, hm, hp, heff]
          | ok atts =>
            simp [sendEmailCustomHtmlBodyFull, sendEmailCustomHtmlBody, hm, hp, hto, heff]
      · cases hp : prepareAttachments bufBase64 http params with
        | mk res eff =>
          rw [hp] at heff
          cases res with
          | error e => simp [sendEmailCustomText, hm, hp, heff]
          | ok atts => simp [sendEmailCustomText, hm, hp, hto, heff]
      · by_cases hc : attsCount params.attachments = 0
        · simp [sendEmailUsingFileAttachment, hc]
        · cases hp : prepareAttachments bufBase64 http params with
          | mk res eff =>
            rw [hp] at heff
            cases res with
            | error e => simp [sendEmailUsingFileAttachment, hm, hc, hp, heff]
            | ok atts =>
              by_cases ht : jsTruthyOpt params.template <;>
                by_cases hh : jsTruthyOpt params.html <;>
                  simp [sendEmailUsingFileAttachment, hm, hc, hp, hto, heff, ht, hh]
    · refine ⟨by simp [sendEmailFromTemplate, hm],
        by simp [sendEmailCustomHtmlBodyFull, hm], by simp [sendEmailCustomText, hm], ?_⟩
      by_cases hc : attsCount params.attachments = 0 <;>
        simp [sendEmailUsingFileAttachment, hm, hc]
  · intro hm atts eff hpok
    refine ⟨?_, ?_, ?_, ?_⟩
    · simp [sendEmailFromTemplate, hm, hpok, hto]
    · simp [sendEmailCustomHtmlBodyFull, sendEmailCustomHtmlBody, hm, hpok, hto]
    · simp [sendEmailCustomText, hm, hpok, hto]
    · intro hc
      by_cases ht : jsTruthyOpt params.template <;>
        by_cases hh : jsTruthyOpt params.html <;>
          simp [sendEmailUsingFileAttachment, hm, hc, hpok, hto, ht, hh]

/-- C5 witness: the amended statement at a concrete request (invalid
recipient, HTML body, no attachments, masking disabled), through
`sendOps_invalid_recipient_amended`. -/
theorem sendOps_invalid_recipient_amended_witness :
    (sendEmailCustomHtmlBodyFull (fun _ => false) (fun _ => "") failing404Http
        (fun _ => .ok ()) exampleOpts badRecipientParams).1
      = .error (.badRequest "Invalid email address provided")
    ∧ (sendEmailCustomHtmlBodyFull (fun _ => false) (fun _ => "") failing404Http
        (fun _ => .ok ()) exampleOpts badRecipientParams).2.countP isSgSendEff = 0 := by
  have h := sendOps_invalid_recipient_amended (fun _ => false) (fun _ => "") failing404Http
    (fun _ => .ok ()) exampleOpts badRecipientParams (by decide)
  exact ⟨(h.2 (by decide) none [] (by decide)).2.1, h.1.2.1⟩

/-- The SendGrid message assembled by `sendEmailCustomHtmlBody`. -/
def htmlMsgOf (opts : SendgridModuleOptions) (params : EmailParams)
    (atts : Option (List PreparedAttachment)) : MailMsg :=
  { toAddr := params.toAddr
    fromAddr := jsOrStr params.fromAddr opts.defaultFromEmail
    subject := params.subject
    templateId := none
    dynamicTemplateData := none
    html := params.html
    text := none
    attachments := atts }

/-- The example request of the spec: valid recipient and sender, subject and
HTML body. -/
def validHtmlParams : EmailParams :=
  { emptyParams with
      toAddr := .single "a@b.com"
      fromAddr := some "s@c.com"
      subject := some "Hi"
      html := some "<p>x</p>" }

/-- The same request with a URL attachment added. -/
def validHtmlUrlParams : EmailParams :=
  { validHtmlParams with url := some "https://files.example.com/a.pdf" }

/-- An email-syntax predicate accepting exactly the two example addresses. -/
def isEmailAB : String → Bool := fun s => s == "a@b.com" || s == "s@c.com"

/-- C7 counterexample: a request with valid recipient and sender and an
always-succeeding provider client, but carrying a URL whose fetch answers
404, neither returns the success marker nor reaches the provider send — the
claim fails as universally stated because attachment preparation runs first
and can fail. -/
theorem sendEmailCustomHtmlBody_success_counterexample :
    checkValidEmailList isEmailAB (some validHtmlUrlParams.toAddr.normalize) = true
    ∧ checkValidEmailList isEmailAB
        (some [jsOrStr validHtmlUrlParams.fromAddr exampleOpts.defaultFromEmail]) = true
    ∧ (sendEmailCustomHtmlBody isEmailAB (fun _ => "") failing404Http (fun _ => .ok ())
        exampleOpts validHtmlUrlParams).1 ≠ .ok "success"
    ∧ (sendEmailCustomHtmlBody isEmailAB (fun _ => "") failing404Http (fun _ => .ok ())
        exampleOpts validHtmlUrlParams).2.countP isSgSendEff = 0 := by
  refine ⟨rfl, rfl, ?_, rfl⟩
  decide

/-- C7 as amended: for every request whose attachment preparation succeeds
(in particular any request without a URL attachment), with valid recipient
and sender addresses and a provider client whose send succeeds,
`sendEmailCustomHtmlBody` performs exactly one provider send call, whose
message carries the matching to/from/subject/html fields, and returns the
success marker. -/
theorem sendEmailCustomHtmlBody_success_amended
    (isEmail : String → Bool) (bufBase64 : List Nat → String) (http : String → HttpResult)
    (sgSend : MailMsg → Except String Unit) (opts : SendgridModuleOptions)
    (params : EmailParams) (atts : Option (List PreparedAttachment)) (eff : List Effect)
    (hprep : prepareAttachments bufBase64 http params = (.ok atts, eff))
    (hto : checkValidEmailList isEmail (some params.toAddr.normalize) = true)
    (hfrom : checkValidEmailList isEmail
      (some [jsOrStr params.fromAddr opts.defaultFromEmail]) = true)
    (hsend : ∀ m, sgSend m = .ok ()) :
    sendEmailCustomHtmlBody isEmail bufBase64 http sgSend opts params
        = (.ok "success", eff ++ [.sgSend (htmlMsgOf opts params atts)])
    ∧ (eff ++ [Effect.sgSend (htmlMsgOf opts params atts)]).countP isSgSendEff = 1
    ∧ (htmlMsgOf opts params atts).toAddr = params.toAddr
    ∧ (htmlMsgOf opts params atts).fromAddr = jsOrStr params.fromAddr opts.defaultFromEmail
    ∧ (htmlMsgOf opts params atts).subject = params.subject
    ∧ (htmlMsgOf opts params atts).html = params.html
    ∧ (htmlMsgOf opts params atts).attachments = atts := by
  refine ⟨?_, ?_, rfl, rfl, rfl, rfl, rfl⟩
  · simp [sendEmailCustomHtmlBody, hprep, hto, hfrom, hsend, htmlMsgOf]
  · have h0 : eff.countP isSgSendEff = 0 := by
      have h1 := prepareAttachments_sgCount bufBase64 http params
      rw [hprep] at h1
      exact h1
    simp [List.countP_append, h0, List.countP_cons, List.countP_nil, isSgSendEff]

/-- C7 witness: the amended statement at the concrete example request of the
spec, through `sendEmailCustomHtmlBody_success_amended`. -/
theorem sendEmailCustomHtmlBody_success_amended_witness :
    sendEmailCustomHtmlBody isEmailAB (fun _ => "") (fun _ => .reqError "down")
        (fun _ => .ok ()) exampleOpts validHtmlParams
      = (.ok "success", [] ++ [.sgSend (htmlMsgOf exampleOpts validHtmlParams none)])
    ∧ ([] ++ [Effect.sgSend (htmlMsgOf exampleOpts validHtmlParams none)]).countP
        isSgSendEff = 1
    ∧ (htmlMsgOf exampleOpts validHtmlParams none).toAddr = validHtmlParams.toAddr
    ∧ (htmlMsgOf exampleOpts validHtmlParams none).fromAddr
        = jsOrStr validHtmlParams.fromAddr exampleOpts.defaultFromEmail
    ∧ (htmlMsgOf exampleOpts validHtmlParams none).subject = validHtmlParams.subject
    ∧ (htmlMsgOf exampleOpts validHtmlParams none).html = validHtmlParams.html
    ∧ (htmlMsgOf exampleOpts validHtmlParams none).attachments = none :=
  sendEmailCustomHtmlBody_success_amended isEmailAB (fun _ => "") (fun _ => .reqError "down")
    (fun _ => .ok ()) exampleOpts validHtmlParams none [] (by decide) (by decide) (by decide)
    (fun _ => rfl)

/-- C8 counterexample: with masking enabled and a recipient without an
at-sign, the initial masked-recipient log of `sendEmailWithUrlAttachment`
throws a raw TypeError before any relay-transport call — zero relay sends
happen and the raw transport result is not returned, refuting the claim as
universally stated. -/
theorem sendEmailWithUrlAttachment_masking_counterexample :
    sendEmailWithUrlAttachment (fun _ => Except.ok "queued") maskedOpts badRecipientParams
      = (.error (.typeError "Cannot read properties of undefined"), [])
    ∧ (sendEmailWithUrlAttachment (fun _ => Except.ok "queued") maskedOpts
        badRecipientParams).1 ≠ .ok "queued" := by
  refine ⟨rfl, ?_⟩
  decide

/-- C8 as amended: `sendEmailWithUrlAttachment` performs no address
validation and no attachment preparation.  When the initial masked-recipient
log cannot throw — masking disabled, or every recipient containing an
at-sign — its only effect is one relay-transport send whose mail options
carry the addresses verbatim and, when a URL is present, the single
path-based descriptor, and it returns the raw transport result (re-thrown
unchanged on failure), not the normalized success marker.  With masking
enabled and a recipient lacking an at-sign, the log throws a TypeError before
any relay call. -/
theorem sendEmailWithUrlAttachment_amended :
    ∀ {α : Type} (smtpSend : SmtpMail → Except String α) (opts : SendgridModuleOptions)
      (params : EmailParams),
      (maskLogThrows (maskingOf opts) params.toAddr = true →
        sendEmailWithUrlAttachment smtpSend opts params
          = (.error (.typeError "Cannot read properties of undefined"), []))
      ∧ (maskLogThrows (maskingOf opts) params.toAddr = false →
        (sendEmailWithUrlAttachment smtpSend opts params).2
            = [Effect.smtpSend (urlMailOptions opts params)]
        ∧ (sendEmailWithUrlAttachment smtpSend opts params).2.countP isSgSendEff = 0
        ∧ (sendEmailWithUrlAttachment smtpSend opts params).2.countP isHttpGetEff = 0
        ∧ ((sendEmailWithUrlAttachment smtpSend opts params).1
            = match smtpSend (urlMailOptions opts params) with
              | .ok r => .ok r
              | .error e => .error (.dispatch e))
        ∧ (urlMailOptions opts params).toAddr = params.toAddr
        ∧ (urlMailOptions opts params).fromAddr = jsOrStr params.fromAddr opts.defaultFromEmail
        ∧ (urlMailOptions opts params).subject = params.subject
        ∧ (urlMailOptions opts params).text = params.text
        ∧ ((urlMailOptions opts params).attachments
            = if jsTruthyOpt params.url then
                some [{ path := params.url.getD "",
                        filename := jsOrStr params.fileName "attachment" }]
              else none)) := by
  intro α smtpSend opts params
  constructor
  · intro hm
    simp [sendEmailWithUrlAttachment, hm]
  · intro hm
    refine ⟨?_, ?_, ?_, ?_, rfl, rfl, rfl, rfl, rfl⟩ <;>
      cases hs : smtpSend (urlMailOptions opts params) <;>
        simp [sendEmailWithUrlAttachment, hm, hs, List.countP_cons, List.countP_nil,
          isSgSendEff, isHttpGetEff]

/-- C8 witness: both branches of `sendEmailWithUrlAttachment_amended` at
concrete inputs — the TypeError path with masking enabled and an
at-sign-less recipient, and the single relay send with masking disabled. -/
theorem sendEmailWithUrlAttachment_amended_witness :
    sendEmailWithUrlAttachment (fun _ => Except.ok "queued") maskedOpts badRecipientParams
      = (.error (.typeError "Cannot read properties of undefined"), [])
    ∧ (sendEmailWithUrlAttachment (fun _ => Except.ok "queued") exampleOpts validHtmlParams).2
        = [Effect.smtpSend (urlMailOptions exampleOpts validHtmlParams)] :=
  ⟨(sendEmailWithUrlAttachment_amended (fun _ => Except.ok "queued") maskedOpts
      badRecipientParams).1 (by decide),
   ((sendEmailWithUrlAttachment_amended (fun _ => Except.ok "queued") exampleOpts
      validHtmlParams).2 (by decide)).1⟩
